import Mathlib

/-!
Verification development for the `frontend_algoritmos` repository: a React UI
for an algorithm-complexity analysis service.  We give a shallow embedding of
the logic-bearing parts of the code:

* the SSE `onmessage` handler of `handleAnalyze` (the "Event Normalizer") in
  the richer component variant (`src/unnamed/part_000`), including its
  code-leakage guard, its branch structure over parsed JSON shapes, its
  report-artifact-URL capture and its completion detection;
* the stream-client event loop (`fetchEventSource` callbacks) as a step
  function over an explicit stream state plus a settle outcome;
* the whole `handleAnalyze` workflow (start request, stream, report fetch
  with fallback, reconciliation) as a function of an environment describing
  the external HTTP world, returning the trace of `setStatus` calls, the
  stored report and the log list;
* the "Report Reconciler" (`reportData.data || reportData.report ||
  reportData` unwrapping and the `complexity_analysis` field merging);
* the display selectors for time complexity and recurrence solution steps
  (`ComplexityAnalyzer` render code);
* the Mermaid chart sanitizer of `MermaidDiagram.tsx`.

Modelling conventions.  JavaScript values parsed from JSON are embedded as
structures of `Option`-typed fields (`none` = absent/undefined).  JS
truthiness on strings (`""` is falsy) is `truthyOpt`; objects are truthy
whenever present.  `JSON.parse` is an external library function and is passed
to the handler as an oracle `String → Option SSEData`; `none` models a parse
exception.  Wall-clock timestamps (`new Date()`) are outside the model, so
`LogEntry` omits the `timestamp` field.  Payload fields the code only passes
through untouched (`artifacts`, `validation`, `hints`, `spec`,
`invariant_or_rule` in the report) are modelled as raw `Option String` slots,
since no code under verification inspects their inside.  String lengths are
codepoint counts (JS counts UTF-16 units; the difference is immaterial for
the ASCII-only constants involved).
-/

/-! ## Generic JS-style string helpers -/

/-- Is `pat` a prefix of `l`?  (Boolean, by direct recursion.) -/
def prefAt : List Char → List Char → Bool
  | [], _ => true
  | _ :: _, [] => false
  | a :: as, b :: bs => a = b && prefAt as bs

/-- Does `pat` occur as a contiguous substring of `l`?  Embeds JS
`String.prototype.includes`. -/
def hasSub (pat : List Char) : List Char → Bool
  | [] => prefAt pat []
  | c :: cs => prefAt pat (c :: cs) || hasSub pat cs

/-- JS `s.includes(pat)`. -/
def jsIncludes (s pat : String) : Bool :=
  hasSub pat.toList s.toList

/-- JS truthiness of a possibly-absent string: absent and `""` are falsy. -/
def truthyOpt : Option String → Bool
  | some s => s != ""
  | none => false

/-- JS `o || dflt` for a possibly-absent string value. -/
def jsOrStr (o : Option String) (dflt : String) : String :=
  match o with
  | some s => if s = "" then dflt else s
  | none => dflt

/-- JS `a || b` for object-valued fields (any present object is truthy). -/
def jsOr {α : Type} (a b : Option α) : Option α :=
  match a with
  | some x => some x
  | none => b

/-- JS `s.toLowerCase()` (ASCII-faithful). -/
def lowerStr (s : String) : String :=
  String.mk (s.toList.map Char.toLower)

/-- A whitespace character, as JS `trim` sees it. -/
def wsChar (c : Char) : Bool := c.isWhitespace

/-- Trim on the left. -/
def trimLeftL (l : List Char) : List Char := l.dropWhile wsChar

/-- Trim on the right. -/
def trimRightL (l : List Char) : List Char := (l.reverse.dropWhile wsChar).reverse

/-- JS `s.trim()` on a character list. -/
def trimL (l : List Char) : List Char := trimRightL (trimLeftL l)

/-- JS `s.trim()`. -/
def jsTrim (s : String) : String := String.mk (trimL s.toList)

/-! ## Log entries (the `LogEntry` interface of `part_000`) -/

/-- The `type` union of the `LogEntry` interface:
`'info' | 'success' | 'error' | 'warning' | 'agent'`. -/
inductive LogType
  | info
  | success
  | error
  | warning
  | agent
deriving DecidableEq

/-- The `LogEntry` record (without the wall-clock `timestamp`, which is
outside the model). -/
structure LogEntry where
  agent : Option String
  state : Option String
  message : String
  type : LogType
  details : Option String
deriving DecidableEq

/-! ## Parsed SSE payloads -/

/-- The `artifacts` sub-object of an SSE message; the handler only reads
`artifacts?.json`. -/
structure ArtifactsRef where
  json : Option String
deriving DecidableEq

/-- The fields of a parsed SSE JSON message that the `onmessage` handler
reads: `agent`, `state`, `summary`, `status`, `message`, `progress`,
`artifacts.json`, `duration_ms`, `complexity`.  The `complexity` payload is
recorded after the cosmetic `safeString` conversion (a plain string), and
`progress`/`duration_ms` as naturals, since the handler only interpolates
them into log text. -/
structure SSEData where
  agent : Option String
  state : Option String
  summary : Option String
  status : Option String
  message : Option String
  progress : Option Nat
  artifacts : Option ArtifactsRef
  duration_ms : Option Nat
  complexity : Option String
deriving DecidableEq

/-- `data.artifacts?.json`. -/
def artJson (d : SSEData) : Option String :=
  d.artifacts.bind (fun a => a.json)

/-- An `SSEData` with every field absent, for building concrete messages. -/
def SSEData.empty : SSEData :=
  ⟨none, none, none, none, none, none, none, none, none⟩

/-! ## Agent display tables (`AGENT_CONFIG`, `STATE_ICONS`).
The icon strings are copied byte-for-byte from the source file. -/

/-- One entry of `AGENT_CONFIG`. -/
structure AgentCfg where
  icon : String
  color : String
  name : String
deriving DecidableEq

/-- The `AGENT_CONFIG` table. -/
def AGENT_CONFIG : List (String × AgentCfg) :=
  [ ("parser", ⟨"üìù", "text-blue-400", "Parser"⟩)
  , ("analyzer", ⟨"üîç", "text-purple-400", "Analyzer"⟩)
  , ("complexity", ⟨"üìä", "text-green-400", "Complexity"⟩)
  , ("validator", ⟨"‚úÖ", "text-yellow-400", "Validator"⟩)
  , ("diagram", ⟨"üìà", "text-pink-400", "Diagram"⟩)
  , ("explainer", ⟨"üí°", "text-orange-400", "Explainer"⟩)
  , ("report", ⟨"üìã", "text-cyan-400", "Report"⟩)
  , ("pipeline", ⟨"‚öôÔ∏è", "text-gray-400", "Pipeline"⟩) ]

/-- The `STATE_ICONS` table. -/
def STATE_ICONS : List (String × String) :=
  [ ("started", "‚ñ∂Ô∏è")
  , ("running", "‚öôÔ∏è")
  , ("finished", "‚úÖ")
  , ("error", "‚ùå")
  , ("skipped", "‚è≠Ô∏è") ]

/-- `AGENT_CONFIG[agent] || ⟨📦-icon, gray, agent⟩`. -/
def lookupCfg (ag : String) : AgentCfg :=
  (AGENT_CONFIG.lookup ag).getD ⟨"üì¶", "text-gray-400", ag⟩

/-- `STATE_ICONS[data.state] || 📋-icon` (an absent state misses the table). -/
def stateIcon (st : Option String) : String :=
  match st with
  | some s => (STATE_ICONS.lookup s).getD "üìã"
  | none => "üìã"

/-! ## The stream state and handler outcomes -/

/-- The component state the SSE callbacks touch: the log list, the captured
report-artifact URL (`capturedReportUrl`) and the `currentAgent` indicator. -/
structure StreamState where
  logs : List LogEntry
  capturedReportUrl : Option String
  currentAgent : Option String
deriving DecidableEq

/-- What a single callback invocation does to the surrounding promise:
nothing (`contin`), `ctrl.abort(); resolve()` (`abortResolve`), or
`ctrl.abort(); reject(err)` (`abortReject`, used only by `onerror`). -/
inductive HandlerOutcome
  | contin
  | abortResolve
  | abortReject (e : String)
deriving DecidableEq

/-- The code-leakage guard of `onmessage` (`part_000` lines 482-488):
`msg.data.includes('from typing import') || msg.data.includes('class ') &&
msg.data.includes('def ') || msg.data.includes('"""') ||
msg.data.length > 1000`.  JS `&&` binds tighter than `||`. -/
def guardFiltered (s : String) : Bool :=
  jsIncludes s "from typing import" ||
  (jsIncludes s "class " && jsIncludes s "def ") ||
  jsIncludes s "\"\"\"" ||
  s.length > 1000

/-- The agent-message branch of `onmessage` (`if (data.agent) { ... }`):
format the log line, classify its severity from `state`, capture the
report-artifact URL, and detect completion
(`pipeline`/`report` with `state === 'finished'`). -/
def agentBranch (d : SSEData) (st : StreamState) : StreamState × HandlerOutcome :=
  let ag := d.agent.getD ""
  let cfg := lookupCfg ag
  let msg1 := stateIcon d.state ++ " [" ++ cfg.name ++ "] " ++ jsOrStr d.state "processing"
  let msg2 := if truthyOpt d.summary then msg1 ++ ": " ++ d.summary.getD "" else msg1
  let det1 := match d.duration_ms with
    | some n => if n ≠ 0 then "Duraci√≥n: " ++ toString n ++ "ms" else ""
    | none => ""
  let det2 := det1 ++ (match d.complexity with
    | some c => " | Complejidad: " ++ c
    | none => "")
  let entry : LogEntry :=
    { agent := some ag
      state := d.state
      message := msg2
      type := if d.state = some "error" then LogType.error
              else if d.state = some "finished" then LogType.success
              else LogType.agent
      details := if det2 = "" then none else some det2 }
  let st1 : StreamState :=
    { st with currentAgent := some ag, logs := st.logs ++ [entry] }
  let st2 : StreamState :=
    if truthyOpt (artJson d) then
      if d.agent = some "report" then { st1 with capturedReportUrl := artJson d }
      else if st1.capturedReportUrl = none then { st1 with capturedReportUrl := artJson d }
      else st1
    else st1
  if (d.agent = some "pipeline" ∧ d.state = some "finished") ∨
     (d.agent = some "report" ∧ d.state = some "finished") then
    ({ st2 with currentAgent := none }, HandlerOutcome.abortResolve)
  else
    (st2, HandlerOutcome.contin)

/-- The legacy `status`-message branch of `onmessage`. -/
def statusBranch (d : SSEData) (st : StreamState) : StreamState × HandlerOutcome :=
  let entry : LogEntry :=
    { agent := none
      state := none
      message := "Status: " ++ d.status.getD ""
      type := if d.status = some "error" then LogType.error else LogType.info
      details := d.message }
  let st1 : StreamState := { st with logs := st.logs ++ [entry] }
  if d.status = some "completed" ∨ d.status = some "finished" then
    (st1, HandlerOutcome.abortResolve)
  else
    (st1, HandlerOutcome.contin)

/-- Dispatch over a successfully parsed message, in the source's priority
order: `agent`, then `status`, then `message`, then `progress`. -/
def parsedBranch (d : SSEData) (st : StreamState) : StreamState × HandlerOutcome :=
  if truthyOpt d.agent then agentBranch d st
  else if truthyOpt d.status then statusBranch d st
  else if truthyOpt d.message then
    ({ st with logs := st.logs ++ [⟨none, none, d.message.getD "", LogType.info, none⟩] },
     HandlerOutcome.contin)
  else match d.progress with
    | some n =>
      ({ st with logs := st.logs ++ [⟨none, none, "Progreso: " ++ toString n ++ "%", LogType.info, none⟩] },
       HandlerOutcome.contin)
    | none => (st, HandlerOutcome.contin)

/-- The `catch` branch of `onmessage`: the raw data is treated as plain text
(logged only under the 500-character cap), and two specific completion
phrases still end the stream. -/
def catchBranch (m : String) (st : StreamState) : StreamState × HandlerOutcome :=
  let lm := jsTrim m
  if lm ≠ "" ∧ lm.length < 500 then
    let st1 : StreamState := { st with logs := st.logs ++ [⟨none, none, lm, LogType.info, none⟩] }
    if jsIncludes (lowerStr lm) "analysis complete" ∨ jsIncludes (lowerStr lm) "pipeline finished" then
      (st1, HandlerOutcome.abortResolve)
    else
      (st1, HandlerOutcome.contin)
  else
    (st, HandlerOutcome.contin)

/-- The full `onmessage` handler of `part_000` (lines 476-568): skip empty
messages, apply the code-leakage guard, then `JSON.parse` (the oracle `p`)
and dispatch; a parse failure lands in the `catch` branch. -/
def onmessage (p : String → Option SSEData) (m : String) (st : StreamState) :
    StreamState × HandlerOutcome :=
  if jsTrim m = "" then (st, HandlerOutcome.contin)
  else if guardFiltered m then (st, HandlerOutcome.contin)
  else match p m with
    | some d => parsedBranch d st
    | none => catchBranch m st

/-! ## The report data model (`AnalysisReport` and payload shapes) -/

/-- The `ComplexityMetric` interface.  The TS declaration marks `big_o`
required, but the render code defends against its absence
(`...big_o || "O(?)"`), so all three bounds are optional here. -/
structure ComplexityMetric where
  big_o : Option String
  omega : Option String
  theta : Option String
deriving DecidableEq

/-- The `complexity: {time, space}` pair; the render code reaches both
members through optional chaining. -/
structure ComplexityPair where
  time : Option ComplexityMetric
  space : Option ComplexityMetric
deriving DecidableEq

/-- The `CaseAnalysis` interface. -/
structure CaseAnalysis where
  description : Option String
  complexity : Option String
deriving DecidableEq

/-- The `cases: {best, worst, average}` object. -/
structure CasesObj where
  best : Option CaseAnalysis
  worst : Option CaseAnalysis
  average : Option CaseAnalysis
deriving DecidableEq

/-- `solution_steps` arrives either as a string array or as a single
newline-separated string (the render code branches on `Array.isArray`). -/
inductive StepsField
  | arr (steps : List String)
  | str (s : String)
deriving DecidableEq

/-- The `recurrence` object. -/
structure RecurrenceObj where
  relation : Option String
  closed_form : Option String
  solution_steps : Option StepsField
deriving DecidableEq

/-- The `complexity_analysis` sub-object shape: `complexity`, `cases`,
`recurrence`. -/
structure ComplexObj where
  complexity : Option ComplexityPair
  cases : Option CasesObj
  recurrence : Option RecurrenceObj
deriving DecidableEq

/-- A raw report object as fetched from the backend: it may nest the three
complexity fields under `complexity_analysis` or carry them flat, and it may
carry its own `analysis_id`.  The pure passthrough fields (`artifacts`,
`validation`, `hints`, `spec`, `invariant_or_rule`) are modelled as raw
payload slots. -/
structure ReportObj where
  analysis_id : Option String
  complexity_analysis : Option ComplexObj
  complexity : Option ComplexityPair
  cases : Option CasesObj
  recurrence : Option RecurrenceObj
  explanation : Option String
  artifacts : Option String
  validation : Option String
  hints : Option String
  spec : Option String
  pseudocode_normalized : Option String
  invariant_or_rule : Option String
deriving DecidableEq

/-- A `ReportObj` with every field absent. -/
def ReportObj.empty : ReportObj :=
  ⟨none, none, none, none, none, none, none, none, none, none, none, none⟩

/-- The JSON payload returned by the report fetch: possibly an envelope with
a `data` or `report` key, possibly the bare report object (`self` holds the
top-level object's own report fields). -/
structure ReportPayload where
  data : Option ReportObj
  report : Option ReportObj
  self : ReportObj
deriving DecidableEq

/-- The payload `{data: R}`. -/
def payloadData (R : ReportObj) : ReportPayload :=
  ⟨some R, none, ReportObj.empty⟩

/-- The payload `{report: R}`. -/
def payloadReport (R : ReportObj) : ReportPayload :=
  ⟨none, some R, ReportObj.empty⟩

/-- The bare payload `R`. -/
def payloadSelf (R : ReportObj) : ReportPayload :=
  ⟨none, none, R⟩

/-- The canonical report the Reconciler builds (`formattedReport`), with
`analysis_id` always resolved to a string. -/
structure AnalysisReport where
  analysis_id : String
  complexity_analysis : ComplexObj
  explanation : Option String
  artifacts : Option String
  validation : Option String
  hints : Option String
  spec : Option String
  pseudocode_normalized : Option String
  invariant_or_rule : Option String
deriving DecidableEq

/-- The Report Reconciler (`part_000` lines 600-619):
`finalReport = reportData.data || reportData.report || reportData`;
`complexityData = finalReport.complexity_analysis || finalReport`;
then `formattedReport` merges field-by-field, with
`analysis_id: reportData.analysis_id || analysis_id` read from the OUTER
payload, and every other field read from `finalReport`/`complexityData`. -/
def reconcileReport (aid : String) (reportData : ReportPayload) : AnalysisReport :=
  let finalReport : ReportObj :=
    match reportData.data with
    | some r => r
    | none =>
      match reportData.report with
      | some r => r
      | none => reportData.self
  let complexityData : ComplexObj :=
    finalReport.complexity_analysis.getD
      ⟨finalReport.complexity, finalReport.cases, finalReport.recurrence⟩
  { analysis_id := jsOrStr reportData.self.analysis_id aid
    complexity_analysis :=
      ⟨jsOr complexityData.complexity finalReport.complexity,
       jsOr complexityData.cases finalReport.cases,
       jsOr complexityData.recurrence finalReport.recurrence⟩
    explanation := finalReport.explanation
    artifacts := finalReport.artifacts
    validation := finalReport.validation
    hints := finalReport.hints
    spec := finalReport.spec
    pseudocode_normalized := finalReport.pseudocode_normalized
    invariant_or_rule := finalReport.invariant_or_rule }

/-! ## Display selectors of `ComplexityAnalyzer` -/

/-- `report.complexity_analysis?.complexity?.time?.theta`. -/
def timeTheta (r : AnalysisReport) : Option String :=
  (r.complexity_analysis.complexity.bind (fun c => c.time)).bind (fun t => t.theta)

/-- `report.complexity_analysis?.complexity?.time?.big_o`. -/
def timeBigO (r : AnalysisReport) : Option String :=
  (r.complexity_analysis.complexity.bind (fun c => c.time)).bind (fun t => t.big_o)

/-- The markdown string fed to the Time Complexity card (`part_000` lines
815-817): the ternary prefers a truthy `theta`, else `big_o || "O(?)"`,
wrapped in `$...$`. -/
def timeComplexityText (r : AnalysisReport) : String :=
  if truthyOpt (timeTheta r) then "$" ++ (timeTheta r).getD "" ++ "$"
  else "$" ++ jsOrStr (timeBigO r) "O(?)" ++ "$"

/-- `step.replace(/^- /, '')`: strip one leading `"- "`. -/
def stripDash (s : String) : String :=
  if prefAt "- ".toList s.toList then String.mk (s.toList.drop 2) else s

/-- Split a character list on a separator character; JS
`String.prototype.split` semantics (the empty string yields `[""]`, a
trailing separator yields a trailing `""`). -/
def splitOnCharL (sep : Char) : List Char → List (List Char)
  | [] => [[]]
  | c :: cs =>
    if c = sep then [] :: splitOnCharL sep cs
    else match splitOnCharL sep cs with
      | [] => [[c]]
      | h :: t => (c :: h) :: t

/-- JS `s.split('\n')`. -/
def jsSplitNL (s : String) : List String :=
  (splitOnCharL '\n' s.toList).map String.mk

/-- The ordered list of solution-step strings the render produces (`part_000`
lines 873-879): an array is mapped through unchanged; a string is split on
newlines with one leading `"- "` stripped per line. -/
def renderSolutionSteps : StepsField → List String
  | StepsField.arr steps => steps
  | StepsField.str s => (jsSplitNL s).map stripDash

/-! ## The Mermaid chart sanitizer (`MermaidDiagram.tsx`) -/

/-- JS `s.replace(pat, repl)` with a global non-regex pattern: leftmost
non-overlapping replacement of every occurrence. -/
def replaceAllL (pat repl : List Char) : List Char → List Char
  | [] => []
  | c :: cs =>
    if h : pat ≠ [] ∧ prefAt pat (c :: cs) then
      repl ++ replaceAllL pat repl ((c :: cs).drop pat.length)
    else
      c :: replaceAllL pat repl cs
termination_by l => l.length
decreasing_by
  · simp only [List.length_drop, List.length_cons]
    have hp : 0 < pat.length := List.length_pos.mpr h.1
    omega
  · simp only [List.length_cons]
    omega

/-- The four `classDef`/`:::` rewrites of `renderDiagram`
(`MermaidDiagram.tsx` lines 34-38), in source order. -/
def rewriteClasses (l : List Char) : List Char :=
  replaceAllL ":::default".toList ":::defaultStyle".toList
    (replaceAllL "classDef default ".toList "classDef defaultStyle ".toList
      (replaceAllL ":::call".toList ":::callNode".toList
        (replaceAllL "classDef call ".toList "classDef callNode ".toList l)))

/-- Case-insensitive prefix test (the `/^.../i` regex anchor). -/
def ciPrefAt (kw s : List Char) : Bool :=
  prefAt (kw.map Char.toLower) (s.map Char.toLower)

/-- The recognized diagram-type keywords of the `hasValidPrefix` regex in
`renderDiagram` (line 42). -/
def diagramTypeKws : List String :=
  ["graph", "flowchart", "sequenceDiagram", "classDiagram", "stateDiagram",
   "erDiagram", "journey", "gantt", "pie", "quadrantChart",
   "requirementDiagram", "gitGraph", "mindmap", "timeline"]

/-- The `hasValidPrefix` test of `renderDiagram`: does the trimmed chart
begin (case-insensitively) with a recognized diagram-type keyword? -/
def hasValidTypeHeader (l : List Char) : Bool :=
  diagramTypeKws.any (fun kw => ciPrefAt kw.toList l)

/-- The chart sanitizer of `renderDiagram` (lines 33-46): apply the four
rewrites, then prepend `graph TD` when the trimmed result lacks a
diagram-type keyword.  The untrimmed rewritten chart is what gets the
prefix. -/
def sanitizeChart (chart : String) : String :=
  let s := rewriteClasses chart.toList
  if hasValidTypeHeader (trimL s) then String.mk s
  else String.mk ("graph TD\n".toList ++ s)

/-- What `renderDiagram` hands to `mermaid.render`: nothing when the chart
prop is falsy (the handler errors out first), else the sanitized chart —
never the raw input. -/
def renderedDiagram (chart : String) : Option String :=
  if chart = "" then none else some (sanitizeChart chart)

/-! ## The stream client (`fetchEventSource` callback loop) -/

/-- The transport-level events a run of the SSE connection can deliver, in
order: a successful or failed open, data messages, a transport error, or a
clean close.  `openFail`/`transportError` carry the error's message text. -/
inductive StreamEvent
  | openOk
  | openFail (stText : String)
  | msg (data : String)
  | transportError (errMsg : String)
  | closeEvt
deriving DecidableEq

/-- How the promise wrapping `fetchEventSource` ends: never (no termination
condition met before the event supply ends), `resolve()`, or `reject(err)`
with the error's message. -/
inductive StreamSettle
  | pending
  | resolved
  | rejected (e : String)
deriving DecidableEq

/-- The `onerror` callback (`part_000` lines 570-575): log the connection
error, abort, reject.  The error object is modelled by its message text. -/
def onerrorCb (e : String) (st : StreamState) : StreamState × HandlerOutcome :=
  ({ st with logs := st.logs ++ [⟨none, none, "Error de conexi√≥n: " ++ e, LogType.error, none⟩] },
   HandlerOutcome.abortReject e)

/-- Run the `fetchEventSource` callbacks over the delivered events until a
callback settles the surrounding promise.  One event at a time, in arrival
order; once `resolve`/`reject` fires (with its `ctrl.abort()`), no further
event is processed.  A failed `onopen` is surfaced through `onerror` by the
transport library, hence logs and rejects like a transport error. -/
def runStreamEvents (p : String → Option SSEData) :
    List StreamEvent → StreamState → StreamState × StreamSettle
  | [], st => (st, StreamSettle.pending)
  | StreamEvent.openOk :: es, st =>
    runStreamEvents p es
      { st with logs := st.logs ++ [⟨none, none, "Conectado al stream de progreso", LogType.success, none⟩] }
  | StreamEvent.openFail s :: _, st =>
    ((onerrorCb ("Failed to connect to SSE: " ++ s) st).1,
     StreamSettle.rejected ("Failed to connect to SSE: " ++ s))
  | StreamEvent.msg d :: es, st =>
    match onmessage p d st with
    | (st2, HandlerOutcome.contin) => runStreamEvents p es st2
    | (st2, HandlerOutcome.abortResolve) => (st2, StreamSettle.resolved)
    | (st2, HandlerOutcome.abortReject e) => (st2, StreamSettle.rejected e)
  | StreamEvent.transportError e :: _, st =>
    ((onerrorCb e st).1, StreamSettle.rejected e)
  | StreamEvent.closeEvt :: _, st =>
    ({ st with logs := st.logs ++ [⟨none, none, "Stream cerrado", LogType.info, none⟩] },
     StreamSettle.resolved)

/-! ## The full `handleAnalyze` workflow -/

/-- The session status enumeration of the component. -/
inductive Status
  | idle
  | analyzing
  | fetching_report
  | complete
  | error
deriving DecidableEq

/-- What ends up in the `report` state variable: the primary path stores the
reconciler's output, the fallback path stores the fetched JSON verbatim. -/
inductive StoredReport
  | reconciled (r : AnalysisReport)
  | raw (p : ReportPayload)
deriving DecidableEq

/-- The external world of one analysis run: the outcome of the start `POST`,
the `analysis_id` it returns, the `JSON.parse` oracle, the delivered stream
events, and the outcomes/payloads of the primary and fallback report
fetches.  `startStatusText`/`primaryStatusText` model `statusText` of the
failed responses. -/
structure RunEnv where
  inputCode : String
  startOk : Bool
  startStatusText : String
  analysisId : String
  parse : String → Option SSEData
  events : List StreamEvent
  primaryOk : Bool
  primaryStatusText : String
  primaryPayload : ReportPayload
  fallbackOk : Bool
  fallbackPayload : ReportPayload

/-- The observable result of one `handleAnalyze` run: the ordered trace of
`setStatus` calls, the stored report, the surfaced error message, the final
log list, and how the stream promise settled (when the run got that far). -/
structure RunResult where
  statusTrace : List Status
  report : Option StoredReport
  errorMsg : Option String
  logs : List LogEntry
  streamSettle : Option StreamSettle
deriving DecidableEq

/-- The first log line of a run. -/
def logIniciando : LogEntry :=
  ⟨none, none, "Iniciando an√°lisis...", LogType.info, none⟩

/-- The `Analysis ID: ...` log line. -/
def logAnalysisId (aid : String) : LogEntry :=
  ⟨none, none, "Analysis ID: " ++ aid, LogType.info, none⟩

/-- The `catch` block's log line (it interpolates the raw `err.message`). -/
def errorCatchLog (emsg : String) : LogEntry :=
  ⟨none, none, "‚ùå Error: " ++ emsg, LogType.error, none⟩

/-- The success log line after the report is stored. -/
def logDone : LogEntry :=
  ⟨none, none, "‚úÖ An√°lisis completado exitosamente!", LogType.success, none⟩

/-- The `Obteniendo reporte final...` log line. -/
def logFetching : LogEntry :=
  ⟨none, none, "Obteniendo reporte final...", LogType.info, none⟩

/-- `setErrorMsg(err.message || 'An unexpected error occurred')`. -/
def catchErrorMsg (emsg : String) : String :=
  if emsg = "" then "An unexpected error occurred" else emsg

/-- The stream state when the SSE phase begins: the two start-up log lines,
no captured URL, no current agent. -/
def stateAfterStart (env : RunEnv) : StreamState :=
  ⟨[logIniciando, logAnalysisId env.analysisId], none, none⟩

/-- The `handleAnalyze` workflow (`part_000` lines 431-633).  Empty input
returns before any `setStatus`.  Otherwise the run sets `analyzing`, posts
the start request (failure throws into the `catch`), consumes the stream,
sets `fetching_report` once the stream resolves, fetches the report (primary
URL, then the `/api/report/{id}` fallback; the fallback payload is stored
verbatim, the primary payload goes through the Reconciler), and ends in
`complete`, or in `error` via the `catch` block. -/
def handleAnalyze (env : RunEnv) : RunResult :=
  if jsTrim env.inputCode = "" then
    ⟨[], none, none, [], none⟩
  else if ¬ env.startOk then
    let emsg := "Failed to start analysis: " ++ env.startStatusText
    ⟨[Status.analyzing, Status.error], none, some (catchErrorMsg emsg),
     [logIniciando, errorCatchLog emsg], none⟩
  else
    match runStreamEvents env.parse env.events (stateAfterStart env) with
    | (st1, StreamSettle.pending) =>
      ⟨[Status.analyzing], none, none, st1.logs, some StreamSettle.pending⟩
    | (st1, StreamSettle.rejected e) =>
      ⟨[Status.analyzing, Status.error], none, some (catchErrorMsg e),
       st1.logs ++ [errorCatchLog e], some (StreamSettle.rejected e)⟩
    | (st1, StreamSettle.resolved) =>
      let logs2 := st1.logs ++ [logFetching]
      if env.primaryOk then
        ⟨[Status.analyzing, Status.fetching_report, Status.complete],
         some (StoredReport.reconciled (reconcileReport env.analysisId env.primaryPayload)),
         none, logs2 ++ [logDone], some StreamSettle.resolved⟩
      else if env.fallbackOk then
        ⟨[Status.analyzing, Status.fetching_report, Status.complete],
         some (StoredReport.raw env.fallbackPayload),
         none, logs2 ++ [logDone], some StreamSettle.resolved⟩
      else
        let emsg := "Failed to fetch report: " ++ env.primaryStatusText
        ⟨[Status.analyzing, Status.fetching_report, Status.error], none,
         some (catchErrorMsg emsg), logs2 ++ [errorCatchLog emsg],
         some StreamSettle.resolved⟩

/-! ## Shared helper lemmas -/

theorem prefAt_append {p l : List Char} (h : prefAt p l = true) (x : List Char) :
    prefAt p (l ++ x) = true := by
  induction p generalizing l with
  | nil => simp [prefAt]
  | cons a as ih =>
    cases l with
    | nil => simp [prefAt] at h
    | cons b bs =>
      simp only [prefAt, Bool.and_eq_true, decide_eq_true_eq] at h
      simp only [List.cons_append, prefAt, Bool.and_eq_true, decide_eq_true_eq]
      exact ⟨h.1, ih h.2⟩

theorem dropWhile_append_persist {α : Type} {p : α → Bool} {l₁ : List α}
    (h : l₁.dropWhile p ≠ []) (l₂ : List α) :
    (l₁ ++ l₂).dropWhile p = l₁.dropWhile p ++ l₂ := by
  induction l₁ with
  | nil => simp [List.dropWhile] at h
  | cons a as ih =>
    by_cases hp : p a
    · simp only [List.cons_append, List.dropWhile_cons, hp, if_true] at h ⊢
      exact ih h
    · simp only [List.cons_append, List.dropWhile_cons, hp] at h ⊢
      simp

theorem dropWhile_append_all {α : Type} {p : α → Bool} {l₁ : List α}
    (h : l₁.dropWhile p = []) (l₂ : List α) :
    (l₁ ++ l₂).dropWhile p = l₂.dropWhile p := by
  induction l₁ with
  | nil => simp
  | cons a as ih =>
    by_cases hp : p a
    · simp only [List.cons_append, List.dropWhile_cons, hp, if_true] at h ⊢
      exact ih h
    · simp [List.dropWhile_cons, hp] at h

/-- After prepending `graph TD\n`, the trimmed chart always starts with a
recognized diagram-type keyword. -/
theorem graphTD_header (r : List Char) :
    hasValidTypeHeader (trimL ("graph TD\n".toList ++ r)) = true := by
  have hG : "graph TD\n".toList = ['g', 'r', 'a', 'p', 'h', ' ', 'T', 'D', '\n'] := rfl
  rw [hG]
  have h1 : trimLeftL (['g', 'r', 'a', 'p', 'h', ' ', 'T', 'D', '\n'] ++ r) =
      ['g', 'r', 'a', 'p', 'h', ' ', 'T', 'D', '\n'] ++ r := by
    unfold trimLeftL
    rw [dropWhile_append_persist (by decide) r]
    rfl
  unfold trimL
  rw [h1]
  unfold trimRightL
  rw [List.reverse_append]
  have hrev : List.reverse ['g', 'r', 'a', 'p', 'h', ' ', 'T', 'D', '\n'] =
      ['\n', 'D', 'T', ' ', 'h', 'p', 'a', 'r', 'g'] := rfl
  rw [hrev]
  by_cases he : r.reverse.dropWhile wsChar = []
  · rw [dropWhile_append_all he]
    decide
  · rw [dropWhile_append_persist he]
    rw [List.reverse_append]
    have hrev2 : List.reverse ['\n', 'D', 'T', ' ', 'h', 'p', 'a', 'r', 'g'] =
        (['g', 'r', 'a', 'p', 'h', ' ', 'T', 'D', '\n'] : List Char) := rfl
    rw [hrev2]
    unfold hasValidTypeHeader
    apply List.any_eq_true.mpr
    refine ⟨"graph", by simp [diagramTypeKws], ?_⟩
    unfold ciPrefAt
    rw [List.map_append]
    exact prefAt_append (by decide) _

/-- Claim C10: the diagram handed to `mermaid.render` is the sanitized chart,
never the raw input: the four `classDef`/`:::` rewrites are applied, and
`graph TD` is prepended exactly when the trimmed rewritten chart does not
begin with a recognized diagram-type keyword — so the rendered chart always
carries a diagram-type header. -/
theorem c10_sanitized_rendering (chart : String) :
    renderedDiagram chart = (if chart = "" then none else some (sanitizeChart chart)) ∧
    sanitizeChart chart =
      (if hasValidTypeHeader (trimL (rewriteClasses chart.toList))
       then String.mk (rewriteClasses chart.toList)
       else String.mk ("graph TD\n".toList ++ rewriteClasses chart.toList)) ∧
    hasValidTypeHeader (trimL (sanitizeChart chart).toList) = true := by
  refine ⟨rfl, rfl, ?_⟩
  unfold sanitizeChart
  by_cases h : hasValidTypeHeader (trimL (rewriteClasses chart.toList)) = true
  · rw [if_pos h]
    exact h
  · rw [if_neg h]
    exact graphTD_header (rewriteClasses chart.toList)

/-- Claim C5: an SSE message hitting the code-leakage guard (over 1000
characters, or containing `from typing import`, both `class ` and `def `, or
a triple quote) produces no log entry and no other state change — it is
filtered before any parsing, logging, URL capture or completion check. -/
theorem c5_guard_filters_entirely (p : String → Option SSEData) (m : String)
    (st : StreamState) (h : guardFiltered m = true) :
    onmessage p m st = (st, HandlerOutcome.contin) := by
  unfold onmessage
  by_cases ht : jsTrim m = ""
  · rw [if_pos ht]
  · rw [if_neg ht, if_pos h]

/-- Witness for C5 at a concrete leaking message. -/
theorem c5_guard_filters_entirely_witness :
    onmessage (fun _ => none) "from typing import os" ⟨[], none, none⟩ =
      (⟨[], none, none⟩, HandlerOutcome.contin) :=
  c5_guard_filters_entirely (fun _ => none) "from typing import os" ⟨[], none, none⟩ (by decide)

/-- Claim C7: the recurrence solution-steps render is shape-insensitive: the
array `["a","b"]` and the string `"- a\n- b"` both produce the ordered list
`["a","b"]` (the string is split on newlines with one leading `"- "`
stripped per line). -/
theorem c7_steps_shape_insensitive :
    renderSolutionSteps (StepsField.str "- a\n- b") = ["a", "b"] ∧
    renderSolutionSteps (StepsField.arr ["a", "b"]) = ["a", "b"] := by
  constructor
  · decide
  · rfl

/-- Claim C6: the Time Complexity card prefers a truthy `theta`, then a
truthy `big_o`, then the placeholder `O(?)` (presence is JS truthiness:
absent or empty strings fall through). -/
theorem c6_time_display (r : AnalysisReport) :
    (∀ s, timeTheta r = some s → s ≠ "" → timeComplexityText r = "$" ++ s ++ "$") ∧
    (truthyOpt (timeTheta r) = false →
      ∀ s, timeBigO r = some s → s ≠ "" → timeComplexityText r = "$" ++ s ++ "$") ∧
    (truthyOpt (timeTheta r) = false → truthyOpt (timeBigO r) = false →
      timeComplexityText r = "$O(?)$") := by
  refine ⟨?_, ?_, ?_⟩
  · intro s hs hne
    simp [timeComplexityText, hs, truthyOpt, hne]
  · intro hf s hs hne
    simp [timeComplexityText, hf, hs, jsOrStr, hne]
  · intro hf hb
    have hbo : jsOrStr (timeBigO r) "O(?)" = "O(?)" := by
      cases hdef : timeBigO r with
      | none => simp [jsOrStr]
      | some s =>
        rw [hdef] at hb
        have hs : s = "" := by simpa [truthyOpt] using hb
        simp [jsOrStr, hs]
    simp [timeComplexityText, hf, hbo]

/-- Witness for C6 at three concrete reports (theta present, theta absent
with big_o present, both absent). -/
theorem c6_time_display_witness :
    timeComplexityText ⟨"a1", ⟨some ⟨some ⟨some "O(n2)", none, some "Theta(n2)"⟩, none⟩, none, none⟩,
        none, none, none, none, none, none, none⟩ = "$Theta(n2)$" ∧
    timeComplexityText ⟨"a1", ⟨some ⟨some ⟨some "O(n)", none, none⟩, none⟩, none, none⟩,
        none, none, none, none, none, none, none⟩ = "$O(n)$" ∧
    timeComplexityText ⟨"a1", ⟨none, none, none⟩,
        none, none, none, none, none, none, none⟩ = "$O(?)$" :=
  ⟨(c6_time_display _).1 "Theta(n2)" rfl (by decide),
   (c6_time_display _).2.1 (by decide) "O(n)" rfl (by decide),
   (c6_time_display _).2.2 (by decide) (by decide)⟩

/-- Claim C4 counterexample: processing of subsequent messages does NOT
always continue after a parse-failing message.  The plain text
`analysis complete` fails to parse, is logged, and then the catch branch
aborts and resolves the stream (`part_000` lines 561-565): a stream
delivering a later message never processes it — its log entry is absent.
The run still does not fail (the settle is `resolved`). -/
theorem c4_counterexample :
    (onmessage (fun _ => none) "analysis complete" ⟨[], none, none⟩).2 =
      HandlerOutcome.abortResolve ∧
    (runStreamEvents (fun _ => none)
        [StreamEvent.msg "analysis complete", StreamEvent.msg "later message"]
        ⟨[], none, none⟩).2 = StreamSettle.resolved ∧
    (runStreamEvents (fun _ => none)
        [StreamEvent.msg "analysis complete", StreamEvent.msg "later message"]
        ⟨[], none, none⟩).1.logs =
      [⟨none, none, "analysis complete", LogType.info, none⟩] := by
  decide

/-- Claim C4 (amended): a message whose data fails to parse as JSON never
fails the run — the handler can never reject the stream promise; its raw
text is either appended as a single plain-text info log entry (then only
when the trimmed text is under the 500-character cap) or dropped, leaving
the state otherwise untouched; and processing of subsequent messages
continues (outcome `contin`) UNLESS the text contains one of the two
completion phrases (`analysis complete` / `pipeline finished`,
case-insensitively), in which case the handler aborts and resolves the
stream — a successful end, not a failure. -/
theorem c4_amended_parse_failure_swallowed (p : String → Option SSEData) (m : String)
    (st : StreamState) (hp : p m = none) :
    (∀ e, (onmessage p m st).2 ≠ HandlerOutcome.abortReject e) ∧
    ((onmessage p m st).1.logs = st.logs ∨
      ((onmessage p m st).1.logs = st.logs ++ [⟨none, none, jsTrim m, LogType.info, none⟩] ∧
        (jsTrim m).length < 500)) ∧
    ((onmessage p m st).2 = HandlerOutcome.abortResolve →
      jsIncludes (lowerStr (jsTrim m)) "analysis complete" = true ∨
      jsIncludes (lowerStr (jsTrim m)) "pipeline finished" = true) := by
  unfold onmessage
  rw [hp]
  by_cases ht : jsTrim m = ""
  · rw [if_pos ht]
    exact ⟨by intro e; simp, Or.inl rfl, by intro h; simp at h⟩
  · rw [if_neg ht]
    by_cases hg : guardFiltered m = true
    · rw [if_pos hg]
      exact ⟨by intro e; simp, Or.inl rfl, by intro h; simp at h⟩
    · rw [if_neg hg]
      unfold catchBranch
      by_cases hc : jsTrim m ≠ "" ∧ (jsTrim m).length < 500
      · rw [if_pos hc]
        by_cases hph : jsIncludes (lowerStr (jsTrim m)) "analysis complete" = true ∨
            jsIncludes (lowerStr (jsTrim m)) "pipeline finished" = true
        · rw [if_pos hph]
          exact ⟨by intro e; simp, Or.inr ⟨rfl, hc.2⟩, fun _ => hph⟩
        · rw [if_neg hph]
          exact ⟨by intro e; simp, Or.inr ⟨rfl, hc.2⟩, by intro h; simp at h⟩
      · rw [if_neg hc]
        exact ⟨by intro e; simp, Or.inl rfl, by intro h; simp at h⟩

/-- Witness for C4 (amended) at a concrete unparseable message. -/
theorem c4_amended_witness :
    (∀ e, (onmessage (fun _ => none) "plain text line" ⟨[], none, none⟩).2 ≠
        HandlerOutcome.abortReject e) ∧
    ((onmessage (fun _ => none) "plain text line" ⟨[], none, none⟩).1.logs = [] ∨
      ((onmessage (fun _ => none) "plain text line" ⟨[], none, none⟩).1.logs =
          [] ++ [⟨none, none, jsTrim "plain text line", LogType.info, none⟩] ∧
        (jsTrim "plain text line").length < 500)) ∧
    ((onmessage (fun _ => none) "plain text line" ⟨[], none, none⟩).2 =
        HandlerOutcome.abortResolve →
      jsIncludes (lowerStr (jsTrim "plain text line")) "analysis complete" = true ∨
      jsIncludes (lowerStr (jsTrim "plain text line")) "pipeline finished" = true) :=
  c4_amended_parse_failure_swallowed (fun _ => none) "plain text line" ⟨[], none, none⟩ rfl

/-- The completion outcome of `onmessage` is a pure function of the message:
an unfiltered, parseable message from agent `report` or `pipeline` with
state `finished` yields `ctrl.abort(); resolve()` in every state. -/
theorem onmessage_finished_abortResolve (p : String → Option SSEData) (m : String)
    (d : SSEData) (hne : jsTrim m ≠ "") (hg : guardFiltered m = false) (hp : p m = some d)
    (ha : d.agent = some "report" ∨ d.agent = some "pipeline")
    (hs : d.state = some "finished") :
    ∀ st : StreamState, (onmessage p m st).2 = HandlerOutcome.abortResolve := by
  intro st
  unfold onmessage
  rw [if_neg hne, if_neg (by simp [hg]), hp]
  show (parsedBranch d st).2 = HandlerOutcome.abortResolve
  unfold parsedBranch
  have hag : truthyOpt d.agent = true := by
    rcases ha with h | h <;> simp [h, truthyOpt]
  rw [if_pos hag]
  unfold agentBranch
  rcases ha with h | h <;> simp [h, hs]

/-- Claim C1: an SSE message whose parsed JSON body carries
`agent == "report"` (or `agent == "pipeline"`) and `state == "finished"` —
and which reaches the JSON parse, i.e. is non-empty and not swallowed by the
code-leakage guard — makes the handler abort the connection and resolve the
stream promise, in any state; the stream then terminates with `resolved`
without consuming any later event. -/
theorem c1_finished_resolves_stream (p : String → Option SSEData) (m : String)
    (st : StreamState) (d : SSEData)
    (hne : jsTrim m ≠ "") (hg : guardFiltered m = false) (hp : p m = some d)
    (ha : d.agent = some "report" ∨ d.agent = some "pipeline")
    (hs : d.state = some "finished") :
    (onmessage p m st).2 = HandlerOutcome.abortResolve ∧
    ∀ evs : List StreamEvent, ∀ st2 : StreamState,
      (runStreamEvents p (StreamEvent.msg m :: evs) st2).2 = StreamSettle.resolved := by
  have key := onmessage_finished_abortResolve p m d hne hg hp ha hs
  refine ⟨key st, ?_⟩
  intro evs st2
  have h2 := key st2
  unfold runStreamEvents
  rcases hom : onmessage p m st2 with ⟨st3, o⟩
  rw [hom] at h2
  simp only at h2
  subst h2
  simp

/-- Witness for C1: a concrete `report`/`finished` message. -/
theorem c1_finished_resolves_stream_witness :
    (onmessage
        (fun _ => some { SSEData.empty with agent := some "report", state := some "finished" })
        "m1" ⟨[], none, none⟩).2 = HandlerOutcome.abortResolve :=
  (c1_finished_resolves_stream
    (fun _ => some { SSEData.empty with agent := some "report", state := some "finished" })
    "m1" ⟨[], none, none⟩
    { SSEData.empty with agent := some "report", state := some "finished" }
    (by decide) (by decide) rfl (Or.inl rfl) rfl).1

/-! ## Claims C2, C3, C9: the reconciler and the run workflow -/

/-- A report object wrapped/unwrapped by the C2 counterexample: it carries
its own `analysis_id`, different from the run's. -/
def c2R : ReportObj :=
  { ReportObj.empty with analysis_id := some "report-xyz", explanation := some "exp" }

/-- Claim C2 counterexample: the reconciler does NOT produce the same
canonical report for `{data: R}` and bare `R` when `R` carries its own
`analysis_id`: the envelope case falls back to the run's id (the code reads
`reportData.analysis_id` from the OUTER payload), the bare case keeps
`R`'s. -/
theorem c2_counterexample :
    reconcileReport "run-1" (payloadData c2R) ≠ reconcileReport "run-1" (payloadSelf c2R) := by
  decide

/-- Claim C2 (amended): the reconciler produces the same canonical report
for `{data: R}` and `{report: R}` unconditionally; the bare payload `R`
agrees with them whenever `R`'s own truthy `analysis_id` (if any) equals the
run's `analysis_id` — the only divergent field is `analysis_id`, because the
envelope hides the inner id from `reportData.analysis_id`. -/
theorem c2_amended_reconciler_shape_insensitive (aid : String) (R : ReportObj) :
    reconcileReport aid (payloadData R) = reconcileReport aid (payloadReport R) ∧
    ((truthyOpt R.analysis_id = true → R.analysis_id = some aid) →
      reconcileReport aid (payloadData R) = reconcileReport aid (payloadSelf R)) := by
  constructor
  · rfl
  · intro h
    have hid : jsOrStr R.analysis_id aid = aid := by
      cases hR : R.analysis_id with
      | none => rfl
      | some s =>
        by_cases hs : s = ""
        · simp [jsOrStr, hs]
        · have : some s = some aid := by
            rw [← hR]
            exact h (by simp [hR, truthyOpt, hs])
          simp [jsOrStr, hs]
          exact Option.some.inj this
    unfold reconcileReport payloadData payloadSelf
    rw [hid]
    rfl

/-- A report object with no `analysis_id` of its own, for the C2 witness. -/
def c2Rw : ReportObj :=
  { ReportObj.empty with explanation := some "exp" }

/-- Witness for C2 (amended) at a concrete inner report. -/
theorem c2_amended_witness :
    reconcileReport "run-1" (payloadData c2Rw) = reconcileReport "run-1" (payloadReport c2Rw) ∧
    reconcileReport "run-1" (payloadData c2Rw) = reconcileReport "run-1" (payloadSelf c2Rw) :=
  ⟨(c2_amended_reconciler_shape_insensitive "run-1" c2Rw).1,
   (c2_amended_reconciler_shape_insensitive "run-1" c2Rw).2 (by decide)⟩

/-- The empty report payload, for concrete environments. -/
def emptyPayload : ReportPayload := payloadSelf ReportObj.empty

/-- A run whose start `POST` fails. -/
def c3Env : RunEnv :=
  ⟨"x", false, "Bad Gateway", "a1", fun _ => none, [], false, "", emptyPayload,
   false, emptyPayload⟩

/-- Claim C3 counterexample: when the start request fails, the status jumps
`analyzing → error` without ever passing through `fetching_report` — the
claimed strict linear order `analyzing → fetching_report → {complete|error}`
is violated on the error side. -/
theorem c3_counterexample :
    (handleAnalyze c3Env).statusTrace = [Status.analyzing, Status.error] ∧
    Status.fetching_report ∉ (handleAnalyze c3Env).statusTrace := by
  decide

/-- Claim C3 (amended): per run the status-set trace is one of
`[analyzing]` (stream never settles), `[analyzing, error]` (start or stream
failure), `[analyzing, fetching_report, complete]`, or
`[analyzing, fetching_report, error]`; so `analyzing` always comes first,
`fetching_report` is entered only after the stream promise resolves,
`complete` is reached only from `fetching_report` — but `error` may also be
reached directly from `analyzing`. -/
theorem c3_amended_linear_trace (env : RunEnv) (h : jsTrim env.inputCode ≠ "") :
    ((handleAnalyze env).statusTrace = [Status.analyzing] ∨
     (handleAnalyze env).statusTrace = [Status.analyzing, Status.error] ∨
     (handleAnalyze env).statusTrace =
       [Status.analyzing, Status.fetching_report, Status.complete] ∨
     (handleAnalyze env).statusTrace =
       [Status.analyzing, Status.fetching_report, Status.error]) ∧
    (Status.fetching_report ∈ (handleAnalyze env).statusTrace →
      (handleAnalyze env).streamSettle = some StreamSettle.resolved) := by
  unfold handleAnalyze
  rw [if_neg h]
  by_cases hok : env.startOk
  · rw [if_neg (by simpa using hok)]
    rcases hr : runStreamEvents env.parse env.events (stateAfterStart env) with ⟨st1, s⟩
    cases s with
    | pending => exact ⟨Or.inl rfl, by intro hm; simp at hm⟩
    | rejected e => exact ⟨Or.inr (Or.inl rfl), by intro hm; simp at hm⟩
    | resolved =>
      by_cases hp : env.primaryOk
      · refine ⟨Or.inr (Or.inr (Or.inl ?_)), fun _ => ?_⟩ <;> simp [hp]
      · by_cases hf : env.fallbackOk
        · refine ⟨Or.inr (Or.inr (Or.inl ?_)), fun _ => ?_⟩ <;> simp [hp, hf]
        · refine ⟨Or.inr (Or.inr (Or.inr ?_)), fun _ => ?_⟩ <;> simp [hp, hf]
  · rw [if_pos (by simpa using hok)]
    exact ⟨Or.inr (Or.inl rfl), by intro hm; simp at hm⟩

/-- Witness for C3 (amended) at the concrete failed-start run. -/
theorem c3_amended_witness :
    ((handleAnalyze c3Env).statusTrace = [Status.analyzing] ∨
     (handleAnalyze c3Env).statusTrace = [Status.analyzing, Status.error] ∨
     (handleAnalyze c3Env).statusTrace =
       [Status.analyzing, Status.fetching_report, Status.complete] ∨
     (handleAnalyze c3Env).statusTrace =
       [Status.analyzing, Status.fetching_report, Status.error]) ∧
    (Status.fetching_report ∈ (handleAnalyze c3Env).statusTrace →
      (handleAnalyze c3Env).streamSettle = some StreamSettle.resolved) :=
  c3_amended_linear_trace c3Env (by decide)

/-- Claim C9: when the preferred report fetch fails and the
`/api/report/{analysis_id}` fallback succeeds, the fallback JSON payload is
stored as the current report verbatim — no envelope unwrapping, no
`complexity_analysis` reconciliation — unlike the primary path, which stores
the reconciler's output. -/
theorem c9_fallback_verbatim (env : RunEnv) (h0 : jsTrim env.inputCode ≠ "")
    (h1 : env.startOk = true)
    (h2 : (runStreamEvents env.parse env.events (stateAfterStart env)).2 =
      StreamSettle.resolved) :
    (env.primaryOk = false → env.fallbackOk = true →
      (handleAnalyze env).report = some (StoredReport.raw env.fallbackPayload)) ∧
    (env.primaryOk = true →
      (handleAnalyze env).report =
        some (StoredReport.reconciled (reconcileReport env.analysisId env.primaryPayload))) := by
  unfold handleAnalyze
  rw [if_neg h0, if_neg (by simp [h1])]
  rcases hr : runStreamEvents env.parse env.events (stateAfterStart env) with ⟨st1, s⟩
  rw [hr] at h2
  simp only at h2
  subst h2
  constructor
  · intro hp hf
    simp [hp, hf]
  · intro hp
    simp [hp]

/-- The fallback payload stored verbatim by the C9 witness run. -/
def c9FallbackR : ReportObj :=
  { ReportObj.empty with explanation := some "fallback", analysis_id := some "inner" }

/-- A run whose primary report fetch fails but whose fallback succeeds; the
stream resolves through a clean close. -/
def c9Env : RunEnv :=
  ⟨"x", true, "", "a9", fun _ => none, [StreamEvent.closeEvt], false, "Not Found",
   emptyPayload, true, payloadSelf c9FallbackR⟩

/-- Witness for C9 at the concrete fallback run. -/
theorem c9_fallback_verbatim_witness :
    (handleAnalyze c9Env).report = some (StoredReport.raw c9Env.fallbackPayload) :=
  (c9_fallback_verbatim c9Env (by decide) rfl (by decide)).1 rfl rfl

/-! ## Claim C8: report-artifact-URL capture precedence -/

/-- The URL a message contributes through the dedicated `report` agent: the
message must reach the parse (non-empty, unfiltered), parse to an
agent-branch message with `agent === 'report'` and a truthy
`artifacts.json`. -/
def reportCaptureVal (p : String → Option SSEData) (m : String) : Option String :=
  if jsTrim m = "" then none
  else if guardFiltered m then none
  else match p m with
    | some d =>
      if d.agent = some "report" ∧ truthyOpt (artJson d) = true then artJson d else none
    | none => none

/-- The URL a message contributes through any other (truthy) agent: kept
only as a backup while no URL has been captured yet. -/
def otherCaptureVal (p : String → Option SSEData) (m : String) : Option String :=
  if jsTrim m = "" then none
  else if guardFiltered m then none
  else match p m with
    | some d =>
      if truthyOpt d.agent = true ∧ ¬ d.agent = some "report" ∧ truthyOpt (artJson d) = true
      then artJson d else none
    | none => none

theorem catchBranch_url (m : String) (st : StreamState) :
    ((catchBranch m st).1).capturedReportUrl = st.capturedReportUrl := by
  simp only [catchBranch]
  by_cases hc : jsTrim m ≠ "" ∧ (jsTrim m).length < 500
  · rw [if_pos hc]
    by_cases hph : jsIncludes (lowerStr (jsTrim m)) "analysis complete" = true ∨
        jsIncludes (lowerStr (jsTrim m)) "pipeline finished" = true
    · rw [if_pos hph]
    · rw [if_neg hph]
  · rw [if_neg hc]

theorem statusBranch_url (d : SSEData) (st : StreamState) :
    ((statusBranch d st).1).capturedReportUrl = st.capturedReportUrl := by
  simp only [statusBranch]
  by_cases hc : d.status = some "completed" ∨ d.status = some "finished"
  · rw [if_pos hc]
  · rw [if_neg hc]

theorem agentBranch_url (d : SSEData) (st : StreamState) :
    ((agentBranch d st).1).capturedReportUrl =
      (if truthyOpt (artJson d) = true then
        (if d.agent = some "report" then artJson d
         else if st.capturedReportUrl = none then artJson d
         else st.capturedReportUrl)
      else st.capturedReportUrl) := by
  simp only [agentBranch]
  by_cases hart : truthyOpt (artJson d) = true
  · simp only [hart, if_true]
    by_cases hrep : d.agent = some "report"
    · simp only [hrep, if_true]
      split <;> rfl
    · simp only [hrep, if_false]
      by_cases hsu : st.capturedReportUrl = none
      · simp only [hsu, if_true]
        split <;> rfl
      · simp only [hsu, if_false]
        split <;> rfl
  · simp only [hart, if_false]
    split <;> rfl

/-- One-step characterization of `capturedReportUrl`: a report-agent capture
always overwrites; otherwise an existing URL is kept; otherwise a
backup (non-report) capture fills an empty slot. -/
theorem onmessage_url (p : String → Option SSEData) (m : String) (st : StreamState) :
    ((onmessage p m st).1).capturedReportUrl =
      (match reportCaptureVal p m with
      | some v => some v
      | none =>
        match st.capturedReportUrl with
        | some u => some u
        | none => otherCaptureVal p m) := by
  by_cases h1 : jsTrim m = ""
  · have hL : onmessage p m st = (st, HandlerOutcome.contin) := by
      unfold onmessage
      rw [if_pos h1]
    have hr : reportCaptureVal p m = none := by
      unfold reportCaptureVal
      rw [if_pos h1]
    have ho : otherCaptureVal p m = none := by
      unfold otherCaptureVal
      rw [if_pos h1]
    rw [hL, hr, ho]
    cases hsu : st.capturedReportUrl <;> simp [hsu]
  · by_cases h2 : guardFiltered m = true
    · have hL : onmessage p m st = (st, HandlerOutcome.contin) := by
        unfold onmessage
        rw [if_neg h1, if_pos h2]
      have hr : reportCaptureVal p m = none := by
        unfold reportCaptureVal
        rw [if_neg h1, if_pos h2]
      have ho : otherCaptureVal p m = none := by
        unfold otherCaptureVal
        rw [if_neg h1, if_pos h2]
      rw [hL, hr, ho]
      cases hsu : st.capturedReportUrl <;> simp [hsu]
    · cases hp : p m with
      | none =>
        have hL : onmessage p m st = catchBranch m st := by
          unfold onmessage
          rw [if_neg h1, if_neg (by simp [h2]), hp]
        have hr : reportCaptureVal p m = none := by
          unfold reportCaptureVal
          rw [if_neg h1, if_neg (by simp [h2]), hp]
        have ho : otherCaptureVal p m = none := by
          unfold otherCaptureVal
          rw [if_neg h1, if_neg (by simp [h2]), hp]
        rw [hL, hr, ho, catchBranch_url]
        cases hsu : st.capturedReportUrl <;> simp [hsu]
      | some d =>
        have hL : onmessage p m st = parsedBranch d st := by
          unfold onmessage
          rw [if_neg h1, if_neg (by simp [h2]), hp]
        have hr : reportCaptureVal p m =
            (if d.agent = some "report" ∧ truthyOpt (artJson d) = true
             then artJson d else none) := by
          unfold reportCaptureVal
          rw [if_neg h1, if_neg (by simp [h2]), hp]
        have ho : otherCaptureVal p m =
            (if truthyOpt d.agent = true ∧ ¬ d.agent = some "report" ∧
                truthyOpt (artJson d) = true
             then artJson d else none) := by
          unfold otherCaptureVal
          rw [if_neg h1, if_neg (by simp [h2]), hp]
        rw [hL, hr, ho]
        by_cases hag : truthyOpt d.agent = true
        · have hab : parsedBranch d st = agentBranch d st := by
            unfold parsedBranch
            rw [if_pos hag]
          rw [hab, agentBranch_url]
          by_cases hart : truthyOpt (artJson d) = true
          · simp only [hart, if_true, and_true]
            by_cases hrep : d.agent = some "report"
            · simp only [hrep, if_true]
              cases hja : artJson d with
              | none => rw [hja] at hart; simp [truthyOpt] at hart
              | some v => simp [hja]
            · simp only [hrep, if_false, hag, not_false_iff, true_and, if_true]
              cases hsu : st.capturedReportUrl <;> simp [hsu]
          · simp only [hart, if_false, and_false, false_and]
            cases hsu : st.capturedReportUrl <;> simp [hsu]
        · have hrep : ¬ d.agent = some "report" := by
            intro hc
            exact hag (by simp [hc, truthyOpt])
          have hun : ((parsedBranch d st).1).capturedReportUrl = st.capturedReportUrl := by
            simp only [parsedBranch]
            rw [if_neg hag]
            by_cases hstat : truthyOpt d.status = true
            · rw [if_pos hstat, statusBranch_url]
            · rw [if_neg hstat]
              by_cases hmsg : truthyOpt d.message = true
              · rw [if_pos hmsg]
              · rw [if_neg hmsg]
                cases hprog : d.progress <;> simp [hprog]
          rw [hun]
          simp only [hrep, false_and, and_false, if_false, hag, false_and, if_false]
          cases hsu : st.capturedReportUrl <;> simp [hsu]

/-- Process a whole sequence of delivered SSE message payloads through
`onmessage`, in arrival order (the live run processes exactly such a
sequence — the prefix of the stream up to its termination). -/
def procMsgs (p : String → Option SSEData) : List String → StreamState → StreamState
  | [], st => st
  | m :: ms, st => procMsgs p ms ((onmessage p m st).1)

theorem procMsgs_append (p : String → Option SSEData) (l₁ l₂ : List String)
    (st : StreamState) :
    procMsgs p (l₁ ++ l₂) st = procMsgs p l₂ (procMsgs p l₁ st) := by
  induction l₁ generalizing st with
  | nil => rfl
  | cons m ms ih => simp [procMsgs, ih]

/-- Invariant carrier: once the captured URL satisfies `P` and every
report-capture in the remaining messages satisfies `P`, the final captured
URL satisfies `P`. -/
theorem procMsgs_url_invariant (p : String → Option SSEData) (P : String → Prop) :
    ∀ (ms : List String) (st : StreamState),
    (∃ u, st.capturedReportUrl = some u ∧ P u) →
    (∀ m ∈ ms, ∀ v, reportCaptureVal p m = some v → P v) →
    ∃ u, (procMsgs p ms st).capturedReportUrl = some u ∧ P u := by
  intro ms
  induction ms with
  | nil =>
    intro st h _
    exact h
  | cons m ms ih =>
    intro st h hAll
    apply ih
    · rcases h with ⟨u, hu, hP⟩
      cases hrc : reportCaptureVal p m with
      | some v => exact ⟨v, by rw [onmessage_url, hrc], hAll m (by simp) v hrc⟩
      | none => exact ⟨u, by rw [onmessage_url, hrc, hu], hP⟩
    · intro m' hm' v hv
      exact hAll m' (by simp [hm']) v hv

/-- Claim C8: over any processed sequence of SSE messages, (1) once a
message from the `report` agent carrying a truthy `artifacts.json` has been
processed, the captured report-artifact URL comes from a report-agent
message of the remaining sequence — it is never overwritten by another
agent's URL, whatever the arrival order; and (2) while a URL is already
captured, a message that is not a report-capture leaves it untouched (a
non-report URL is only ever captured into an empty slot). -/
theorem c8_report_url_precedence :
    (∀ (p : String → Option SSEData) (ms₁ : List String) (m : String) (ms₂ : List String)
        (st : StreamState) (u : String),
      reportCaptureVal p m = some u →
      ∃ v, (procMsgs p (ms₁ ++ m :: ms₂) st).capturedReportUrl = some v ∧
        ∃ m2, m2 ∈ m :: ms₂ ∧ reportCaptureVal p m2 = some v) ∧
    (∀ (p : String → Option SSEData) (m : String) (st : StreamState) (u : String),
      st.capturedReportUrl = some u → reportCaptureVal p m = none →
      ((onmessage p m st).1).capturedReportUrl = some u) := by
  constructor
  · intro p ms₁ m ms₂ st u hu
    rw [procMsgs_append]
    show ∃ v, (procMsgs p ms₂ ((onmessage p m (procMsgs p ms₁ st)).1)).capturedReportUrl =
      some v ∧ ∃ m2, m2 ∈ m :: ms₂ ∧ reportCaptureVal p m2 = some v
    apply procMsgs_url_invariant p
      (fun v => ∃ m2, m2 ∈ m :: ms₂ ∧ reportCaptureVal p m2 = some v) ms₂
    · exact ⟨u, by rw [onmessage_url, hu], ⟨m, by simp, hu⟩⟩
    · intro m' hm' v hv
      exact ⟨m', by simp [hm'], hv⟩
  · intro p m st u hu hrc
    rw [onmessage_url, hrc, hu]

/-- The parse oracle of the C8 witness: a `report`-agent message carrying an
artifact URL. -/
def c8ParseReport : String → Option SSEData := fun _ =>
  some { SSEData.empty with
    agent := some "report", state := some "running", artifacts := some ⟨some "u-rep"⟩ }

/-- The parse oracle of the C8 witness's second part: a non-report agent
carrying an artifact URL. -/
def c8ParseParser : String → Option SSEData := fun _ =>
  some { SSEData.empty with
    agent := some "parser", state := some "running", artifacts := some ⟨some "u-other"⟩ }

/-- Witness for C8: a processed report-capture fixes a report URL, and a
non-report capture cannot overwrite an already-captured URL. -/
theorem c8_report_url_precedence_witness :
    (∃ v, (procMsgs c8ParseReport ([] ++ "r" :: []) ⟨[], none, none⟩).capturedReportUrl =
        some v ∧ ∃ m2, m2 ∈ "r" :: ([] : List String) ∧
          reportCaptureVal c8ParseReport m2 = some v) ∧
    ((onmessage c8ParseParser "x" ⟨[], some "u-rep", none⟩).1).capturedReportUrl =
      some "u-rep" :=
  ⟨c8_report_url_precedence.1 c8ParseReport [] "r" [] ⟨[], none, none⟩ "u-rep" (by decide),
   c8_report_url_precedence.2 c8ParseParser "x" ⟨[], some "u-rep", none⟩ "u-rep" rfl (by decide)⟩
